import Mathlib

/-!
Formal model of the Redmine chatbot service and proofs about it.

The definitions below are shallow embeddings of:
- `src/services/memory.py` (ConversationMemoryManager),
- `src/agents/graphs/redmine.py` (AdaptiveRedmineChatbot and its LangGraph graph),
- `src/agents/nodes/adaptive_rag.py` (RouteQuery / AdaptiveRAGRouter),
- `src/services/redmine_metadata.py` (RedmineMetadataLoader),
- `src/services/redmine_client.py` (RedmineAPIClient),
- `src/tools/redmine.py` (the LLM tool layer).

Python dictionaries are modelled as functions `String → Option _`; mutation is
modelled by explicit state passing; network and LLM effects are modelled as
oracle arguments; exceptions are modelled with `Except`.
-/

/-- The single-quote character (codepoint 39), used by several Python format
strings embedded below. -/
def sQuote : String := String.singleton (Char.ofNat 39)

/-- Python slice `l[-n:]`.  For `n = 0` it is `l[0:]`, i.e. the whole list;
for `n ≥ 1` it is the last `min n l.length` elements. -/
def pyLastSlice (l : List α) (n : Nat) : List α :=
  if n = 0 then l else l.drop (l.length - n)

/-- A chat message as stored by `ChatMessageHistory` (role distinguishes
`HumanMessage` / `AIMessage` / others; content is the text). -/
structure PyMsg where
  role : String
  content : String
deriving DecidableEq

/-- The per-conversation metadata dict created by
`ConversationMemoryManager.get_history`:
`{"created_at": ..., "message_count": 0, "last_activity": ...}`. -/
structure ConvMeta where
  createdAt : String
  messageCount : Nat
  lastActivity : String
deriving DecidableEq

/-- State of a `ConversationMemoryManager`: the `_conversations` and
`_metadata` dicts (modelled as partial maps) and `max_messages`. -/
structure MemoryState where
  conversations : String → Option (List PyMsg)
  metadata : String → Option ConvMeta
  maxMessages : Nat

/-- Write a single key of a partial map. -/
def setAt (f : String → Option α) (k : String) (v : Option α) : String → Option α :=
  fun x => if x = k then v else f x

/-- Update a single key of a partial map in place (no-op when absent). -/
def mapAt (f : String → Option α) (k : String) (g : α → α) : String → Option α :=
  fun x => if x = k then (f x).map g else f x

/-- `ConversationMemoryManager.__init__`: empty dicts,
`max_messages = max_messages_per_conversation`. -/
def initState (maxMessagesPerConversation : Nat) : MemoryState :=
  { conversations := fun _ => none
    metadata := fun _ => none
    maxMessages := maxMessagesPerConversation }

/-- The stored message list of a conversation (empty when absent). -/
def convMessages (s : MemoryState) (cid : String) : List PyMsg :=
  (s.conversations cid).getD []

/-- The `message_count` metadata field of a conversation. -/
def metaCount (s : MemoryState) (cid : String) : Option Nat :=
  (s.metadata cid).map ConvMeta.messageCount

/-- `ConversationMemoryManager.get_history`: create the conversation (with
fresh metadata, `message_count = 0`) when absent, update `last_activity`,
and return the history.  `now` stands for `datetime.now().isoformat()`. -/
def getHistory (s : MemoryState) (cid now : String) : MemoryState × List PyMsg :=
  let s1 :=
    if (s.conversations cid).isNone then
      { s with conversations := setAt s.conversations cid (some [])
               metadata := setAt s.metadata cid (some ⟨now, 0, now⟩) }
    else s
  let s2 := { s1 with metadata := mapAt s1.metadata cid (fun m => { m with lastActivity := now }) }
  (s2, (s2.conversations cid).getD [])

/-- `ConversationMemoryManager._trim_history`: when the list is longer than
`max_messages`, replace it by `messages[-max_messages:]`. -/
def trimHistory (s : MemoryState) (cid : String) : MemoryState :=
  if s.maxMessages < (convMessages s cid).length then
    { s with conversations := mapAt s.conversations cid (fun l => pyLastSlice l s.maxMessages) }
  else s

/-- `ConversationMemoryManager.add_message`: get-or-create the history,
append the message, increment `message_count`, then trim. -/
def addMessage (s : MemoryState) (cid : String) (m : PyMsg) (now : String) : MemoryState :=
  let s1 := (getHistory s cid now).1
  let s2 := { s1 with conversations := mapAt s1.conversations cid (fun l => l ++ [m]) }
  let s3 := { s2 with
    metadata := mapAt s2.metadata cid (fun md => { md with messageCount := md.messageCount + 1 }) }
  trimHistory s3 cid

/-- `ConversationMemoryManager.add_user_message`. -/
def addUserMessage (s : MemoryState) (cid content now : String) : MemoryState :=
  addMessage s cid ⟨"human", content⟩ now

/-- `ConversationMemoryManager.add_ai_message`. -/
def addAiMessage (s : MemoryState) (cid content now : String) : MemoryState :=
  addMessage s cid ⟨"ai", content⟩ now

/-- `ConversationMemoryManager.get_messages`: get-or-create, return all
messages. -/
def getMessages (s : MemoryState) (cid now : String) : MemoryState × List PyMsg :=
  getHistory s cid now

/-- `ConversationMemoryManager.get_recent_messages`:
`messages[-n:] if messages else []`. -/
def getRecentMessages (s : MemoryState) (cid : String) (n : Nat) (now : String) :
    MemoryState × List PyMsg :=
  let r := getMessages s cid now
  (r.1, if r.2.isEmpty then [] else pyLastSlice r.2 n)

/-- `ConversationMemoryManager.clear_conversation`: when present, empty the
message list and reset `message_count` to 0. -/
def clearConversation (s : MemoryState) (cid : String) : MemoryState :=
  if (s.conversations cid).isSome then
    { s with conversations := setAt s.conversations cid (some [])
             metadata := mapAt s.metadata cid (fun md => { md with messageCount := 0 }) }
  else s

/-- `ConversationMemoryManager.delete_conversation`: when present, drop both
the history and the metadata. -/
def deleteConversation (s : MemoryState) (cid : String) : MemoryState :=
  if (s.conversations cid).isSome then
    { s with conversations := setAt s.conversations cid none
             metadata := setAt s.metadata cid none }
  else s

/-- Operations of the memory manager relevant to the metadata counter:
`add_message`, `clear_conversation`, `delete_conversation`, and the
read operations that get-or-create a conversation (`get_history`,
`get_messages`, `get_recent_messages`), summarised as `touch`. -/
inductive MemOp where
  | add (cid : String) (m : PyMsg) (now : String)
  | clear (cid : String)
  | delete (cid : String)
  | touch (cid : String) (now : String)

/-- Apply one operation to the manager state. -/
def applyOp (s : MemoryState) : MemOp → MemoryState
  | .add cid m now => addMessage s cid m now
  | .clear cid => clearConversation s cid
  | .delete cid => deleteConversation s cid
  | .touch cid now => (getHistory s cid now).1

/-- Run a sequence of operations from a freshly initialised manager. -/
def runOps (maxM : Nat) (ops : List MemOp) : MemoryState :=
  ops.foldl applyOp (initState maxM)

/-- Specification-side counter: for each conversation, the number of
`add_message` calls since it was created or last cleared (`none` when the
conversation does not exist). -/
def ctrStep (a : String → Option Nat) : MemOp → String → Option Nat
  | .add cid _ _ => setAt a cid (some ((a cid).getD 0 + 1))
  | .clear cid => mapAt a cid (fun _ => 0)
  | .delete cid => setAt a cid none
  | .touch cid _ => setAt a cid (some ((a cid).getD 0))

/-- Run the specification counter over an operation sequence. -/
def runCtr (ops : List MemOp) : String → Option Nat :=
  ops.foldl ctrStep (fun _ => none)

/-- Invariant tying a manager state to the specification counter: the
`message_count` field equals the number of additions since creation/clearing,
conversations and counter have the same domain, and the stored list length is
`min adds max_messages`. -/
def MemInv (maxM : Nat) (s : MemoryState) (a : String → Option Nat) : Prop :=
  s.maxMessages = maxM ∧
  ∀ cid, metaCount s cid = a cid ∧
    ((s.conversations cid).isSome ↔ (a cid).isSome) ∧
    ∀ k, a cid = some k → (convMessages s cid).length = min k maxM

/-- A tool call attached to an AIMessage (name, JSON arguments, call id). -/
structure ToolCall where
  name : String
  argsJson : String
  id : String
deriving DecidableEq

/-- LangChain message kinds used by the Redmine graph: SystemMessage,
HumanMessage, AIMessage (which carries tool_calls) and ToolMessage. -/
inductive BMessage where
  | system (content : String)
  | human (content : String)
  | ai (content : String) (toolCalls : List ToolCall)
  | tool (content : String) (toolCallId : String)
deriving DecidableEq

/-- Python `hasattr(msg, "tool_calls")`: of the message classes above only
AIMessage has the attribute. -/
def hasToolCallsAttr : BMessage → Bool
  | .ai _ _ => true
  | _ => false

/-- The tool_calls list of a message (empty when the attribute is absent). -/
def toolCallsOf : BMessage → List ToolCall
  | .ai _ tc => tc
  | _ => []

/-- Whether a message is a SystemMessage. -/
def isSystemMessage : BMessage → Bool
  | .system _ => true
  | _ => false

/-- The LangGraph END sentinel. -/
def endNode : String := "__end__"

/-- RedmineChatState (src/agents/states/redmine.py): message history
annotated with the add_messages reducer, plus conversation context. -/
structure RedmineChatState where
  messages : List BMessage
  conversationId : String
  currentProjectId : Option Int
  currentIssueId : Option Int

/-- The add_messages reducer of LangGraph: message lists returned by a node
are appended to the message list already in the state. -/
def applyMessagesUpdate (s : RedmineChatState) (delta : List BMessage) : RedmineChatState :=
  { s with messages := s.messages ++ delta }

/-- Prompt construction in AdaptiveRedmineChatbot._chatbot_node: prepend the
cached system message when the history has exactly one message or contains no
SystemMessage. -/
def promptMessages (sysMsg : BMessage) (messages : List BMessage) : List BMessage :=
  if messages.length = 1 ∨ ¬ messages.any isSystemMessage then sysMsg :: messages else messages

/-- AdaptiveRedmineChatbot._chatbot_node: invoke the tool-bound LLM on the
prompt and return the response as the messages delta.  `llm` is the oracle
for `self.llm_with_tools.invoke`. -/
def chatbotNodeOutput (llm : List BMessage → BMessage) (sysMsg : BMessage)
    (s : RedmineChatState) : List BMessage :=
  [llm (promptMessages sysMsg s.messages)]

/-- The LangGraph prebuilt ToolNode: execute every tool call carried by the
last message and return one ToolMessage per call.  `exec` is the oracle for
tool execution. -/
def toolNodeOutput (exec : ToolCall → String) (s : RedmineChatState) : List BMessage :=
  match s.messages.getLast? with
  | some m => (toolCallsOf m).map (fun tc => BMessage.tool (exec tc) tc.id)
  | none => []

/-- AdaptiveRedmineChatbot._should_continue: return "tools" when the last
message has a non-empty tool_calls attribute, END otherwise.  (The Python
code indexes `state["messages"][-1]`; the graph only calls this after the
chatbot node appended its response, so the list is never empty there.) -/
def shouldContinue (messages : List BMessage) : String :=
  match messages.getLast? with
  | some last => if hasToolCallsAttr last && !(toolCallsOf last).isEmpty then "tools" else endNode
  | none => endNode

/-- Shape of a compiled LangGraph StateGraph as used here: named nodes, an
entry point, one conditional-edge source with its mapping, and plain edges. -/
structure GraphDef where
  nodes : List String
  entry : String
  condSource : String
  condMapping : List (String × String)
  plainEdges : List (String × String)

/-- The workflow built by AdaptiveRedmineChatbot._build_graph: nodes
"chatbot" and "tools", entry point "chatbot", conditional edges from
"chatbot" driven by _should_continue with mapping
`{"tools": "tools", END: END}`, and the plain edge tools → chatbot. -/
def redmineGraph : GraphDef :=
  { nodes := ["chatbot", "tools"]
    entry := "chatbot"
    condSource := "chatbot"
    condMapping := [("tools", "tools"), (endNode, endNode)]
    plainEdges := [("tools", "chatbot")] }

/-- Successor of a node: LangGraph evaluates the conditional-edge function on
the state after the node ran and maps its result; plain edges are followed
directly. -/
def nextNode (g : GraphDef) (name : String) (s : RedmineChatState) : String :=
  if name = g.condSource then
    match g.condMapping.lookup (shouldContinue s.messages) with
    | some t => t
    | none => endNode
  else
    match g.plainEdges.lookup name with
    | some t => t
    | none => endNode

/-- Run one node of the Redmine graph (its state update). -/
def runNodeUpdate (llm : List BMessage → BMessage) (exec : ToolCall → String)
    (sysMsg : BMessage) (name : String) (s : RedmineChatState) : RedmineChatState :=
  if name = "chatbot" then applyMessagesUpdate s (chatbotNodeOutput llm sysMsg s)
  else if name = "tools" then applyMessagesUpdate s (toolNodeOutput exec s)
  else s

/-- One step of graph execution: run the current node, then follow the edges
of the Redmine graph. -/
def graphStep (llm : List BMessage → BMessage) (exec : ToolCall → String) (sysMsg : BMessage)
    (p : String × RedmineChatState) : String × RedmineChatState :=
  if p.1 = endNode then p
  else
    let s2 := runNodeUpdate llm exec sysMsg p.1 p.2
    (nextNode redmineGraph p.1 s2, s2)

/-- Names of the nodes executed during the first `k` steps of a run. -/
def execTrace (llm : List BMessage → BMessage) (exec : ToolCall → String) (sysMsg : BMessage) :
    Nat → String × RedmineChatState → List String
  | 0, _ => []
  | k + 1, p =>
      if p.1 = endNode then []
      else p.1 :: execTrace llm exec sysMsg k (graphStep llm exec sysMsg p)

/-- Components of AdaptiveRedmineChatbot after __init__ in the latest
revision: the `self.router = AdaptiveRAGRouter(llm)` and
`self.grader = AdaptiveRAGGrader(llm)` lines are commented out, so neither
component is constructed; the compiled graph is the two-node workflow. -/
structure AdaptiveRedmineChatbotModel where
  router : Option Unit
  grader : Option Unit
  graph : GraphDef

/-- AdaptiveRedmineChatbot.__init__ (latest revision). -/
def mkAdaptiveRedmineChatbot : AdaptiveRedmineChatbotModel :=
  { router := none, grader := none, graph := redmineGraph }

/-- AdaptiveRedmineChatbot.chat / achat: append the user message to the state
(a fresh state when none is given) and invoke the compiled graph from its
entry point; `fuel` bounds the number of steps taken. -/
def chatRun (llm : List BMessage → BMessage) (exec : ToolCall → String) (sysMsg : BMessage)
    (message conversationId : String) (state : Option RedmineChatState) (fuel : Nat) :
    String × RedmineChatState :=
  let s0 := state.getD
    { messages := [], conversationId := conversationId
      currentProjectId := none, currentIssueId := none }
  let s1 := { s0 with messages := s0.messages ++ [BMessage.human message] }
  (graphStep llm exec sysMsg)^[fuel] (redmineGraph.entry, s1)

/-- The `Literal["redmine_tools", "web_search", "direct_answer"]` type of
`RouteQuery.datasource` (src/agents/nodes/adaptive_rag.py). -/
inductive RouteDatasource where
  | redmineTools
  | webSearch
  | directAnswer
deriving DecidableEq

/-- The string value of each datasource literal. -/
def RouteDatasource.str : RouteDatasource → String
  | .redmineTools => "redmine_tools"
  | .webSearch => "web_search"
  | .directAnswer => "direct_answer"

/-- The RouteQuery pydantic model: a datasource literal plus reasoning text;
structured output parsing only ever constructs values of this type. -/
structure RouteQuery where
  datasource : RouteDatasource
  reasoning : String
deriving DecidableEq

/-- AdaptiveRAGRouter.route: the structured-output chain parses the LLM
answer into a RouteQuery, which route logs and returns unchanged.
`structuredOutput` is the oracle for `chain.ainvoke`. -/
def routeResult (structuredOutput : RouteQuery) : RouteQuery := structuredOutput

/-- An entry of the metadata JSON snapshot (projects / statuses / priorities /
trackers): the numeric id and the name (`none` when the dict lacks the key;
the lookups read it as `entry.get('name', '')`). -/
structure MetaEntry where
  id : Int
  name : Option String
deriving DecidableEq

/-- Python `str.lower()`, modelled per character. -/
def pyLower (s : String) : String := String.mk (s.data.map Char.toLower)

/-- Python substring containment `q in s`. -/
def pyContains (s q : String) : Prop := q.data <:+: s.data

instance (s q : String) : Decidable (pyContains s q) := by
  unfold pyContains
  infer_instance

/-- The match test of the `get_*_by_name` lookups:
`name_lower in entry.get('name', '').lower()`. -/
def nameMatches (query : String) (e : MetaEntry) : Prop :=
  pyContains (pyLower (e.name.getD "")) (pyLower query)

instance (query : String) (e : MetaEntry) : Decidable (nameMatches query e) := by
  unfold nameMatches
  infer_instance

/-- The shared lookup loop of get_project_by_name / get_status_by_name /
get_priority_by_name / get_tracker_by_name: return the first entry whose name
contains the query case-insensitively, else None. -/
def getByName (query : String) (entries : List MetaEntry) : Option MetaEntry :=
  entries.find? (fun e => decide (nameMatches query e))

/-- RedmineMetadataLoader state: the four lists extracted from the loaded
JSON snapshot. -/
structure RedmineMetadataLoader where
  projects : List MetaEntry
  statuses : List MetaEntry
  priorities : List MetaEntry
  trackers : List MetaEntry

/-- RedmineMetadataLoader.get_project_by_name. -/
def getProjectByName (L : RedmineMetadataLoader) (name : String) : Option MetaEntry :=
  getByName name L.projects

/-- RedmineMetadataLoader.get_status_by_name. -/
def getStatusByName (L : RedmineMetadataLoader) (name : String) : Option MetaEntry :=
  getByName name L.statuses

/-- RedmineMetadataLoader.get_priority_by_name. -/
def getPriorityByName (L : RedmineMetadataLoader) (name : String) : Option MetaEntry :=
  getByName name L.priorities

/-- RedmineMetadataLoader.get_tracker_by_name. -/
def getTrackerByName (L : RedmineMetadataLoader) (name : String) : Option MetaEntry :=
  getByName name L.trackers

/-- Specification of a first-match lookup, following the words of the claim:
None exactly when no entry matches, and a returned entry is a matching member
of the snapshot list preceded only by non-matching entries. -/
def firstMatchSpec (query : String) (entries : List MetaEntry) (res : Option MetaEntry) : Prop :=
  (res = none ↔ ∀ e ∈ entries, ¬ nameMatches query e) ∧
  ∀ e, res = some e → nameMatches query e ∧ e ∈ entries ∧
    ∃ l₁ l₂, entries = l₁ ++ e :: l₂ ∧ ∀ x ∈ l₁, ¬ nameMatches query x

/-- A query-parameter value in a Redmine REST request. -/
inductive ParamV where
  | intV (n : Int)
  | strV (s : String)
deriving DecidableEq

/-- An HTTP request as assembled by RedmineAPIClient._request: method, URL,
headers, query params and whether a JSON body is attached (body contents are
opaque here). -/
structure HttpRequest where
  method : String
  url : String
  headers : List (String × String)
  params : List (String × ParamV)
  hasJsonBody : Bool
deriving DecidableEq

/-- RedmineAPIClient state after __init__ (base_url has trailing slashes
stripped by `rstrip('/')`, which we take as given). -/
structure RedmineAPIClient where
  baseUrl : String
  apiKey : String

/-- The headers dict set in RedmineAPIClient.__init__. -/
def RedmineAPIClient.reqHeaders (c : RedmineAPIClient) : List (String × String) :=
  [("X-Redmine-API-Key", c.apiKey), ("Content-Type", "application/json")]

/-- RedmineAPIClient._request: every request of the client goes through this
helper and is issued with the client headers against base_url + endpoint. -/
def mkRequest (c : RedmineAPIClient) (method endpoint : String)
    (params : List (String × ParamV)) (hasJsonBody : Bool) : HttpRequest :=
  { method := method, url := c.baseUrl ++ endpoint, headers := c.reqHeaders
    params := params, hasJsonBody := hasJsonBody }

/-- Python truthiness of an optional int (`None` and `0` are falsy). -/
def pyTruthyOptInt : Option Int → Bool
  | none => false
  | some n => n != 0

/-- Python truthiness of an optional string (`None` and `""` are falsy). -/
def pyTruthyOptStr : Option String → Bool
  | none => false
  | some s => s != ""

/-- The params dict assembled by RedmineAPIClient.get_issues: `limit` always;
each filter added when its argument is truthy (`if project_id:` etc.). -/
def getIssuesParams (projectId : Option Int) (statusId : Option String)
    (assignedToId : Option Int) (limit : Int) : List (String × ParamV) :=
  let ps := [("limit", ParamV.intV limit)]
  let ps := if pyTruthyOptInt projectId then
      ps ++ [("project_id", ParamV.intV (projectId.getD 0))] else ps
  let ps := if pyTruthyOptStr statusId then
      ps ++ [("status_id", ParamV.strV (statusId.getD ""))] else ps
  if pyTruthyOptInt assignedToId then
    ps ++ [("assigned_to_id", ParamV.intV (assignedToId.getD 0))] else ps

/-- The request issued by RedmineAPIClient.get_issues. -/
def RedmineAPIClient.getIssuesRequest (c : RedmineAPIClient) (projectId : Option Int)
    (statusId : Option String) (assignedToId : Option Int) (limit : Int) : HttpRequest :=
  mkRequest c "GET" "/issues.json" (getIssuesParams projectId statusId assignedToId limit) false

/-- Whether a param key occurs in a request parameter list. -/
def hasParamKey (ps : List (String × ParamV)) (k : String) : Bool :=
  ps.any (fun p => p.1 == k)

/-- Python exception kinds raised inside the tool layer: ValueError (bad
int() literals) and errors from the Redmine API client. -/
inductive PyErr where
  | valueError (msg : String)
  | apiError (msg : String)
deriving DecidableEq

/-- Python str(e). -/
def PyErr.str : PyErr → String
  | .valueError m => m
  | .apiError m => m

/-- Decimal digit parsing for the int() model. -/
def parseDigits (l : List Char) : Option Nat :=
  if l.isEmpty then none
  else if l.all Char.isDigit then
    some (l.foldl (fun acc c => acc * 10 + (c.toNat - 48)) 0)
  else none

/-- Python int(s) for the strings the tools receive: an optional minus sign
followed by decimal digits; anything else raises ValueError. -/
def pyInt (s : String) : Except PyErr Int :=
  match s.data with
  | '-' :: rest =>
    match parseDigits rest with
    | some n => Except.ok (-(n : Int))
    | none => Except.error (PyErr.valueError
        ("invalid literal for int() with base 10: " ++ sQuote ++ s ++ sQuote))
  | l =>
    match parseDigits l with
    | some n => Except.ok (n : Int)
    | none => Except.error (PyErr.valueError
        ("invalid literal for int() with base 10: " ++ sQuote ++ s ++ sQuote))

/-- A Redmine project as returned by the REST API; optional fields reflect
`.get(...)` access in the formatter. -/
structure RProject where
  id : Int
  name : String
  identifier : Option String
  description : Option String
deriving DecidableEq

/-- A Redmine issue as returned by the REST API; `id` and `subject` are
indexed directly by the tools, the rest is read via `.get`. -/
structure RIssue where
  id : Int
  subject : String
  description : Option String
  projectName : Option String
  statusName : Option String
  priorityName : Option String
  assignedName : Option String
  authorName : Option String
  trackerName : Option String
  createdOn : Option String
  updatedOn : Option String
deriving DecidableEq

/-- A time entry (hours are numeric in Redmine; the numeric type is
irrelevant to the properties proved here, so integers are used). -/
structure RTimeEntry where
  spentOn : Option String
  hours : Int
  userName : Option String
  activityName : Option String
  comments : Option String
deriving DecidableEq

/-- A status / priority / tracker row returned by the client metadata
endpoints. -/
structure NamedItem where
  id : Int
  name : String
deriving DecidableEq

/-- Arguments of a tool invocation; every tool reads the fields it declares
(all parameters are strings except the optional update fields). -/
structure ToolArgs where
  projectId : String
  status : String
  limit : String
  issueId : String
  subject : String
  description : String
  priority : String
  updSubject : Option String
  updDescription : Option String
  updStatus : Option String
  query : String
deriving DecidableEq

/-- Oracle for the Redmine API client calls a tool may await: each field is
the outcome of the corresponding client coroutine in this invocation. -/
structure RedmineOracle where
  projects : Except PyErr (List RProject)
  issues : Except PyErr (List RIssue)
  issue : Except PyErr (Option RIssue)
  createdIssueId : Except PyErr (Option Int)
  updateDone : Except PyErr Unit
  timeEntries : Except PyErr (List RTimeEntry)
  statuses : Except PyErr (List NamedItem)
  priorities : Except PyErr (List NamedItem)
  trackers : Except PyErr (List NamedItem)

/-- Python slice s[:n] on strings. -/
def pyTakeStr (n : Nat) (s : String) : String := String.mk (s.data.take n)

/-- `sep.join(parts)`. -/
def strJoin (sep : String) (parts : List String) : String := String.intercalate sep parts

/-- Python str.isdigit (non-empty, all digits). -/
def pyIsDigit (s : String) : Bool := !s.data.isEmpty && s.data.all Char.isDigit

/-- Python `s.replace("-", "")`: removing the single-character pattern is
dropping every dash. -/
def stripDashes (s : String) : String := String.mk (s.data.filter (fun c => c != '-'))

/-- Python `None if project_id == "null" or not project_id else
int(project_id)`. -/
def pyOptionalId (s : String) : Except PyErr (Option Int) :=
  if s = "null" ∨ s = "" then Except.ok none
  else (pyInt s).map some

/-- Project line of get_redmine_projects. -/
def fmtProjectLine (p : RProject) : String :=
  "- **" ++ p.name ++ "** (ID: " ++ toString p.id ++ ")\n  Identifier: " ++
    p.identifier.getD "N/A" ++ "\n  Description: " ++
    pyTakeStr 100 (p.description.getD "No description") ++ "\n"

/-- Output of get_redmine_projects on a non-empty project list. -/
def fmtProjects (ps : List RProject) : String :=
  strJoin "\n" (("Found " ++ toString ps.length ++ " projects:\n") :: ps.map fmtProjectLine)

/-- get_redmine_projects body (inside the try block). -/
def getRedmineProjectsBody (a : ToolArgs) (o : RedmineOracle) : Except PyErr String := do
  let _limitInt ← pyInt a.limit
  let projects ← o.projects
  if projects.isEmpty then return "No projects found."
  return fmtProjects projects

/-- get_redmine_projects except clause. -/
def getRedmineProjectsWrap (_ : ToolArgs) (e : PyErr) : String :=
  "Error fetching projects: " ++ e.str

/-- The try/except wrapper shared by every tool: return the body result, or
the formatted error message when the body raised. -/
def runTool (body : ToolArgs → RedmineOracle → Except PyErr String)
    (wrap : ToolArgs → PyErr → String) (a : ToolArgs) (o : RedmineOracle) : String :=
  match body a o with
  | .ok s => s
  | .error e => wrap a e

/-- Issue line of get_redmine_issues. -/
def fmtIssueLine (i : RIssue) : String :=
  "- **#" ++ toString i.id ++ ": " ++ i.subject ++ "**\n  Project: " ++
    (i.projectName.getD "N/A") ++ "\n  Status: " ++ (i.statusName.getD "N/A") ++
    "\n  Priority: " ++ (i.priorityName.getD "N/A") ++ "\n  Assigned: " ++
    (i.assignedName.getD "Unassigned") ++ "\n  Created: " ++ (i.createdOn.getD "N/A") ++ "\n"

/-- Output of get_redmine_issues on a non-empty issue list. -/
def fmtIssues (issues : List RIssue) : String :=
  strJoin "\n" (("Found " ++ toString issues.length ++ " issues:\n") :: issues.map fmtIssueLine)

/-- get_redmine_issues body. -/
def getRedmineIssuesBody (a : ToolArgs) (o : RedmineOracle) : Except PyErr String := do
  let _projId ← pyOptionalId a.projectId
  let _limitInt ← pyInt a.limit
  let issues ← o.issues
  if issues.isEmpty then return ("No " ++ a.status ++ " issues found.")
  return fmtIssues issues

/-- get_redmine_issues except clause. -/
def getRedmineIssuesWrap (_ : ToolArgs) (e : PyErr) : String :=
  "Error fetching issues: " ++ e.str

/-- Detail block of get_redmine_issue_details. -/
def fmtIssueDetail (i : RIssue) : String :=
  strJoin "\n"
    ["**Issue #" ++ toString i.id ++ ": " ++ i.subject ++ "**\n",
     "Project: " ++ (i.projectName.getD "N/A"),
     "Tracker: " ++ (i.trackerName.getD "N/A"),
     "Status: " ++ (i.statusName.getD "N/A"),
     "Priority: " ++ (i.priorityName.getD "N/A"),
     "Assigned: " ++ (i.assignedName.getD "Unassigned"),
     "Author: " ++ (i.authorName.getD "N/A"),
     "Created: " ++ (i.createdOn.getD "N/A"),
     "Updated: " ++ (i.updatedOn.getD "N/A"),
     "\n**Description:**\n" ++ (i.description.getD "No description")]

/-- get_redmine_issue_details body (the validation early-return included). -/
def getRedmineIssueDetailsBody (a : ToolArgs) (o : RedmineOracle) : Except PyErr String := do
  if !pyIsDigit (stripDashes a.issueId) then
    return ("Error: " ++ sQuote ++ a.issueId ++ sQuote ++
      " is not a valid issue ID. Issue IDs must be numbers. If you" ++ sQuote ++
      "re looking for an issue by name, use search_redmine_issues tool instead.")
  let _issueIdInt ← pyInt a.issueId
  let iss ← o.issue
  match iss with
  | none => return ("Issue #" ++ a.issueId ++ " not found.")
  | some i => return fmtIssueDetail i

/-- get_redmine_issue_details except clause. -/
def getRedmineIssueDetailsWrap (a : ToolArgs) (e : PyErr) : String :=
  "Error fetching issue #" ++ a.issueId ++ ": " ++ e.str

/-- The priority_map dict with default 2 (normal). -/
def priorityIdOf (p : String) : Int :=
  ((([("low", 1), ("normal", 2), ("high", 3), ("urgent", 4), ("immediate", 5)] :
    List (String × Int)).lookup (pyLower p)).getD 2)

/-- Python string interpolation of an optional int (None prints "None"). -/
def pyOptIntStr : Option Int → String
  | some i => toString i
  | none => "None"

/-- create_redmine_issue body. -/
def createRedmineIssueBody (a : ToolArgs) (o : RedmineOracle) : Except PyErr String := do
  let _projectIdInt ← pyInt a.projectId
  let _priorityId := priorityIdOf a.priority
  let createdId ← o.createdIssueId
  return ("✅ Successfully created issue #" ++ pyOptIntStr createdId ++ ": " ++ a.subject)

/-- create_redmine_issue except clause. -/
def createRedmineIssueWrap (_ : ToolArgs) (e : PyErr) : String :=
  "Error creating issue: " ++ e.str

/-- The status-name loop of update_redmine_issue: first status whose name
equals the requested one case-insensitively. -/
def findStatusId (sts : List NamedItem) (status : String) : Option Int :=
  (sts.find? (fun s => pyLower s.name == pyLower status)).map NamedItem.id

/-- update_redmine_issue body. -/
def updateRedmineIssueBody (a : ToolArgs) (o : RedmineOracle) : Except PyErr String := do
  let _issueIdInt ← pyInt a.issueId
  let _statusId ← (if pyTruthyOptStr a.updStatus then do
      let sts ← o.statuses
      pure (findStatusId sts (a.updStatus.getD ""))
    else pure none)
  let _ ← o.updateDone
  return ("✅ Successfully updated issue #" ++ a.issueId)

/-- update_redmine_issue except clause. -/
def updateRedmineIssueWrap (a : ToolArgs) (e : PyErr) : String :=
  "Error updating issue #" ++ a.issueId ++ ": " ++ e.str

/-- Entry line of get_redmine_time_entries. -/
def fmtTimeEntryLine (e : RTimeEntry) : String :=
  "- " ++ (e.spentOn.getD "N/A") ++ ": " ++ toString e.hours ++ "h\n  User: " ++
    (e.userName.getD "N/A") ++ "\n  Activity: " ++ (e.activityName.getD "N/A") ++
    "\n  Comments: " ++ (e.comments.getD "No comments") ++ "\n"

/-- Output of get_redmine_time_entries on a non-empty entry list (the total
accumulates entry.get('hours', 0)). -/
def fmtTimeEntries (es : List RTimeEntry) : String :=
  strJoin "\n" ((("Found " ++ toString es.length ++ " time entries:\n") ::
    es.map fmtTimeEntryLine) ++
    ["\n**Total Hours: " ++ toString (es.foldl (fun acc e => acc + e.hours) 0) ++ "h**"])

/-- get_redmine_time_entries body. -/
def getRedmineTimeEntriesBody (a : ToolArgs) (o : RedmineOracle) : Except PyErr String := do
  let _projId ← pyOptionalId a.projectId
  let _limitInt ← pyInt a.limit
  let entries ← o.timeEntries
  if entries.isEmpty then return "No time entries found."
  return fmtTimeEntries entries

/-- get_redmine_time_entries except clause. -/
def getRedmineTimeEntriesWrap (_ : ToolArgs) (e : PyErr) : String :=
  "Error fetching time entries: " ++ e.str

/-- Name (ID: id) formatter of get_redmine_metadata. -/
def fmtNamed (x : NamedItem) : String := x.name ++ " (ID: " ++ toString x.id ++ ")"

/-- get_redmine_metadata body. -/
def getRedmineMetadataBody (_ : ToolArgs) (o : RedmineOracle) : Except PyErr String := do
  let sts ← o.statuses
  let pris ← o.priorities
  let trs ← o.trackers
  return strJoin "\n"
    ["**Issue Statuses:**", strJoin ", " (sts.map fmtNamed),
     "\n**Priorities:**", strJoin ", " (pris.map fmtNamed),
     "\n**Trackers:**", strJoin ", " (trs.map fmtNamed)]

/-- get_redmine_metadata except clause. -/
def getRedmineMetadataWrap (_ : ToolArgs) (e : PyErr) : String :=
  "Error fetching metadata: " ++ e.str

/-- The match test of search_redmine_issues: the lowercased query contained
in subject, description or project name. -/
def searchMatches (query : String) (i : RIssue) : Prop :=
  pyContains (pyLower i.subject) (pyLower query) ∨
  pyContains (pyLower (i.description.getD "")) (pyLower query) ∨
  pyContains (pyLower (i.projectName.getD "")) (pyLower query)

instance (query : String) (i : RIssue) : Decidable (searchMatches query i) := by
  unfold searchMatches
  infer_instance

/-- Python slice l[:n] for an int n (a negative n drops from the end). -/
def pySliceTo (n : Int) (l : List α) : List α :=
  if 0 ≤ n then l.take n.toNat else l.take (l.length - n.natAbs)

/-- Match line of search_redmine_issues. -/
def fmtSearchLine (i : RIssue) : String :=
  "- **#" ++ toString i.id ++ ": " ++ i.subject ++ "**\n  Status: " ++
    (i.statusName.getD "N/A") ++ "\n  Project: " ++ (i.projectName.getD "N/A") ++ "\n"

/-- The matching_issues list of search_redmine_issues: fetched issues
filtered by the query, truncated by `[:limit_int]`. -/
def searchMatching (query : String) (limitInt : Int) (fetched : List RIssue) : List RIssue :=
  pySliceTo limitInt (fetched.filter (fun i => decide (searchMatches query i)))

/-- Core of search_redmine_issues after the fetch. -/
def searchCore (query : String) (limitInt : Int) (fetched : List RIssue) : String :=
  let matching := searchMatching query limitInt fetched
  if matching.isEmpty then
    "No issues found matching " ++ sQuote ++ query ++ sQuote ++ "."
  else
    strJoin "\n" (("Found " ++ toString matching.length ++ " issues matching " ++ sQuote ++
      query ++ sQuote ++ ":\n") :: matching.map fmtSearchLine)

/-- The fetch request of search_redmine_issues:
`get_issues(status_id="*", limit=100)`. -/
def searchFetchRequest (c : RedmineAPIClient) : HttpRequest :=
  c.getIssuesRequest none (some "*") none 100

/-- search_redmine_issues body. -/
def searchRedmineIssuesBody (a : ToolArgs) (o : RedmineOracle) : Except PyErr String := do
  let limitInt ← pyInt a.limit
  let issues ← o.issues
  return searchCore a.query limitInt issues

/-- search_redmine_issues except clause. -/
def searchRedmineIssuesWrap (_ : ToolArgs) (e : PyErr) : String :=
  "Error searching issues: " ++ e.str

/-- The redmine_tools list, each tool as its try-block body paired with its
except-clause formatter; the runnable tool is `runTool body wrap`. -/
def redmineToolImpls :
    List ((ToolArgs → RedmineOracle → Except PyErr String) × (ToolArgs → PyErr → String)) :=
  [(getRedmineProjectsBody, getRedmineProjectsWrap),
   (getRedmineIssuesBody, getRedmineIssuesWrap),
   (getRedmineIssueDetailsBody, getRedmineIssueDetailsWrap),
   (createRedmineIssueBody, createRedmineIssueWrap),
   (updateRedmineIssueBody, updateRedmineIssueWrap),
   (getRedmineTimeEntriesBody, getRedmineTimeEntriesWrap),
   (getRedmineMetadataBody, getRedmineMetadataWrap),
   (searchRedmineIssuesBody, searchRedmineIssuesWrap)]

/-- The runnable redmine_tools list. -/
def redmineTools : List (ToolArgs → RedmineOracle → String) :=
  redmineToolImpls.map (fun p => runTool p.1 p.2)

-- ===================== THEOREMS =====================

theorem setAt_self (f : String → Option α) (k : String) (v : Option α) :
    setAt f k v k = v := by
  simp [setAt]

theorem setAt_other (f : String → Option α) (k : String) (v : Option α) {x : String}
    (h : x ≠ k) : setAt f k v x = f x := by
  simp [setAt, h]

theorem mapAt_self (f : String → Option α) (k : String) (g : α → α) :
    mapAt f k g k = (f k).map g := by
  simp [mapAt]

theorem mapAt_other (f : String → Option α) (k : String) (g : α → α) {x : String}
    (h : x ≠ k) : mapAt f k g x = f x := by
  simp [mapAt, h]

theorem getHistory_conversations_at (s : MemoryState) (cid now : String) :
    ((getHistory s cid now).1).conversations cid = some ((getHistory s cid now).2) := by
  unfold getHistory
  cases h : s.conversations cid with
  | none => simp [h, setAt, mapAt]
  | some l => simp [h, setAt, mapAt]

theorem getHistory_snd (s : MemoryState) (cid now : String) :
    (getHistory s cid now).2 = convMessages s cid := by
  unfold getHistory convMessages
  cases h : s.conversations cid with
  | none => simp [h, setAt, mapAt]
  | some l => simp [h, setAt, mapAt]

theorem getHistory_maxMessages (s : MemoryState) (cid now : String) :
    ((getHistory s cid now).1).maxMessages = s.maxMessages := by
  unfold getHistory
  cases h : s.conversations cid with
  | none => simp [h]
  | some l => simp [h]

theorem trimHistory_conv_eq (s : MemoryState) (cid : String) (l : List PyMsg)
    (h : s.conversations cid = some l) :
    convMessages (trimHistory s cid) cid =
      if s.maxMessages < l.length then pyLastSlice l s.maxMessages else l := by
  have hc : convMessages s cid = l := by simp [convMessages, h]
  unfold trimHistory
  rw [hc]
  split
  · simp [convMessages, mapAt, h]
  · exact hc

theorem trimHistory_maxMessages (s : MemoryState) (cid : String) :
    (trimHistory s cid).maxMessages = s.maxMessages := by
  unfold trimHistory
  split <;> rfl

theorem addMessage_conv_eq (s : MemoryState) (cid : String) (m : PyMsg) (now : String) :
    convMessages (addMessage s cid m now) cid =
      (if s.maxMessages < ((getHistory s cid now).2 ++ [m]).length then
        pyLastSlice ((getHistory s cid now).2 ++ [m]) s.maxMessages
      else (getHistory s cid now).2 ++ [m]) := by
  have hconv := getHistory_conversations_at s cid now
  have hmax := getHistory_maxMessages s cid now
  unfold addMessage
  rw [trimHistory_conv_eq _ cid ((getHistory s cid now).2 ++ [m]) (by simp [mapAt, hconv])]
  simp [hmax]

theorem pyLastSlice_length_of_lt {l : List α} {n : Nat} (h1 : 1 ≤ n) (h2 : n < l.length) :
    (pyLastSlice l n).length = n := by
  unfold pyLastSlice
  rw [if_neg (by omega)]
  simp
  omega

/-- C1 (amended with `1 ≤ max_messages`): after every `add_message`, the
stored list of the affected conversation has length at most `max_messages`;
when the appended list fits the bound it is kept whole, and when it would
exceed the bound exactly the most recent `max_messages` messages are kept in
their original order (the oldest messages are dropped first). -/
theorem add_message_bounded_fifo (s : MemoryState) (cid : String) (m : PyMsg) (now : String)
    (hmax : 1 ≤ s.maxMessages) :
    (convMessages (addMessage s cid m now) cid).length ≤ s.maxMessages ∧
    ((getHistory s cid now).2.length + 1 ≤ s.maxMessages →
      convMessages (addMessage s cid m now) cid = (getHistory s cid now).2 ++ [m]) ∧
    (s.maxMessages < (getHistory s cid now).2.length + 1 →
      convMessages (addMessage s cid m now) cid =
        ((getHistory s cid now).2 ++ [m]).drop
          ((getHistory s cid now).2.length + 1 - s.maxMessages) ∧
      (convMessages (addMessage s cid m now) cid).length = s.maxMessages) := by
  have hkey := addMessage_conv_eq s cid m now
  set old := (getHistory s cid now).2 with hold
  have hlen : (old ++ [m]).length = old.length + 1 := by simp
  by_cases hc : s.maxMessages < old.length + 1
  · have hguard : s.maxMessages < (old ++ [m]).length := by omega
    rw [if_pos hguard] at hkey
    have hslice : (pyLastSlice (old ++ [m]) s.maxMessages).length = s.maxMessages := by
      apply pyLastSlice_length_of_lt hmax
      omega
    refine ⟨?_, ?_, ?_⟩
    · rw [hkey, hslice]
    · intro h; omega
    · intro _
      constructor
      · rw [hkey]
        unfold pyLastSlice
        rw [if_neg (by omega)]
        congr 1
        omega
      · rw [hkey, hslice]
  · have hguard : ¬ s.maxMessages < (old ++ [m]).length := by omega
    rw [if_neg hguard] at hkey
    refine ⟨?_, ?_, ?_⟩
    · rw [hkey]; simp; omega
    · intro _; exact hkey
    · intro h; omega

/-- Witness for C1: a concrete manager with `max_messages = 1`; adding two
messages keeps exactly the most recent one. -/
theorem add_message_bounded_fifo_witness :
    (convMessages
        (addMessage (addMessage (initState 1) "c" ⟨"human", "a"⟩ "t0") "c" ⟨"human", "b"⟩ "t1")
        "c").length ≤
      (addMessage (initState 1) "c" ⟨"human", "a"⟩ "t0").maxMessages :=
  (add_message_bounded_fifo (addMessage (initState 1) "c" ⟨"human", "a"⟩ "t0") "c"
    ⟨"human", "b"⟩ "t1" (by decide)).1

/-- Counterexample to C1 as stated: with `max_messages = 0` (allowed by the
constructor), the Python slice `messages[-0:]` keeps the whole list, so after
one `add_message` the stored list has length 1 > 0. -/
theorem add_message_bounded_fifo_cex :
    ¬ (convMessages (addMessage (initState 0) "c" ⟨"human", "hi"⟩ "t") "c").length ≤
      (initState 0).maxMessages := by
  decide

theorem getHistory_conv_other (s : MemoryState) (cid now : String) {x : String} (h : x ≠ cid) :
    ((getHistory s cid now).1).conversations x = s.conversations x := by
  unfold getHistory
  cases hc : s.conversations cid <;> simp [hc, setAt, mapAt, h]

theorem getHistory_meta_other (s : MemoryState) (cid now : String) {x : String} (h : x ≠ cid) :
    ((getHistory s cid now).1).metadata x = s.metadata x := by
  unfold getHistory
  cases hc : s.conversations cid <;> simp [hc, setAt, mapAt, h]

theorem getHistory_meta_at (s : MemoryState) (cid now : String) :
    ((getHistory s cid now).1).metadata cid =
      if (s.conversations cid).isNone then some ⟨now, 0, now⟩
      else (s.metadata cid).map (fun md => { md with lastActivity := now }) := by
  unfold getHistory
  cases hc : s.conversations cid <;> simp [hc, setAt, mapAt]

theorem trimHistory_conv_at (s : MemoryState) (cid : String) (l : List PyMsg)
    (h : s.conversations cid = some l) :
    (trimHistory s cid).conversations cid =
      some (if s.maxMessages < l.length then pyLastSlice l s.maxMessages else l) := by
  have hc : convMessages s cid = l := by simp [convMessages, h]
  unfold trimHistory
  rw [hc]
  split
  · simp [mapAt, h]
  · exact h

theorem trimHistory_conv_other (s : MemoryState) (cid : String) {x : String} (h : x ≠ cid) :
    (trimHistory s cid).conversations x = s.conversations x := by
  unfold trimHistory
  split <;> simp [mapAt, h]

theorem trimHistory_metadata (s : MemoryState) (cid : String) :
    (trimHistory s cid).metadata = s.metadata := by
  unfold trimHistory
  split <;> rfl

theorem addMessage_conv_at (s : MemoryState) (cid : String) (m : PyMsg) (now : String) :
    (addMessage s cid m now).conversations cid =
      some (if s.maxMessages < ((getHistory s cid now).2 ++ [m]).length then
        pyLastSlice ((getHistory s cid now).2 ++ [m]) s.maxMessages
      else (getHistory s cid now).2 ++ [m]) := by
  have hconv := getHistory_conversations_at s cid now
  have hmax := getHistory_maxMessages s cid now
  unfold addMessage
  rw [trimHistory_conv_at _ cid ((getHistory s cid now).2 ++ [m]) (by simp [mapAt, hconv])]
  simp [hmax]

theorem addMessage_conv_other (s : MemoryState) (cid : String) (m : PyMsg) (now : String)
    {x : String} (h : x ≠ cid) :
    (addMessage s cid m now).conversations x = s.conversations x := by
  unfold addMessage
  rw [trimHistory_conv_other _ _ h]
  simp [mapAt, h]
  exact getHistory_conv_other s cid now h

theorem addMessage_meta_other (s : MemoryState) (cid : String) (m : PyMsg) (now : String)
    {x : String} (h : x ≠ cid) :
    (addMessage s cid m now).metadata x = s.metadata x := by
  unfold addMessage
  rw [trimHistory_metadata]
  simp [mapAt, h]
  exact getHistory_meta_other s cid now h

theorem addMessage_metaCount (s : MemoryState) (cid : String) (m : PyMsg) (now : String) :
    metaCount (addMessage s cid m now) cid =
      (if (s.conversations cid).isNone then some 0 else metaCount s cid).map (· + 1) := by
  unfold addMessage
  unfold metaCount
  rw [trimHistory_metadata]
  simp only [mapAt_self]
  rw [show (({ (getHistory s cid now).1 with
      conversations := mapAt ((getHistory s cid now).1).conversations cid
        (fun l => l ++ [m]) } : MemoryState)).metadata = ((getHistory s cid now).1).metadata
    from rfl]
  rw [getHistory_meta_at]
  cases hc : s.conversations cid with
  | none => simp [metaCount]
  | some l => cases hm : s.metadata cid <;> simp [metaCount, hm]

theorem addMessage_maxMessages (s : MemoryState) (cid : String) (m : PyMsg) (now : String) :
    (addMessage s cid m now).maxMessages = s.maxMessages := by
  unfold addMessage
  rw [trimHistory_maxMessages]
  exact getHistory_maxMessages s cid now

theorem min_succ_bound (k0 maxM oldLen : Nat) (hOld : oldLen = min k0 maxM) :
    (maxM < oldLen + 1 → maxM = min (k0 + 1) maxM) ∧
    (¬ maxM < oldLen + 1 → oldLen + 1 = min (k0 + 1) maxM) := by
  omega

theorem none_of_not_isSome {o : Option α} (h : ¬ o.isSome = true) : o = none := by
  cases o with
  | none => rfl
  | some v => simp at h

theorem memInv_step (maxM : Nat) (hmax : 1 ≤ maxM) (s : MemoryState) (a : String → Option Nat)
    (h : MemInv maxM s a) (op : MemOp) :
    MemInv maxM (applyOp s op) (ctrStep a op) := by
  obtain ⟨hm, hall⟩ := h
  cases op with
  | add cid m now =>
    refine ⟨by rw [applyOp, addMessage_maxMessages]; exact hm, fun x => ?_⟩
    obtain ⟨hcnt, hsync, hlen⟩ := hall x
    by_cases hx : x = cid
    · subst hx
      have hold : (getHistory s x now).2 = convMessages s x := getHistory_snd s x now
      have holdlen : (convMessages s x).length = min ((a x).getD 0) maxM := by
        cases ha : a x with
        | none =>
          have hcn : s.conversations x = none := by
            apply none_of_not_isSome
            rw [hsync, ha]
            simp
          simp [convMessages, hcn, ha]
        | some k => simpa [ha] using hlen k ha
      refine ⟨?_, ?_, ?_⟩
      · rw [applyOp, addMessage_metaCount, ctrStep, setAt_self]
        cases hc : s.conversations x with
        | none =>
          have hnone : a x = none := by
            apply none_of_not_isSome
            rw [← hsync, hc]
            simp
          simp [hnone]
        | some l =>
          have hsome : (a x).isSome := by rw [← hsync, hc]; simp
          obtain ⟨k, hk⟩ := Option.isSome_iff_exists.mp hsome
          rw [hcnt, hk]
          simp
      · rw [applyOp, ctrStep, setAt_self, addMessage_conv_at]
        simp
      · intro k hk
        rw [ctrStep, setAt_self] at hk
        have hkval : k = (a x).getD 0 + 1 := by
          injection hk with h'
          omega
        rw [applyOp, convMessages, addMessage_conv_at, hm]
        have harith := min_succ_bound ((a x).getD 0) maxM (convMessages s x).length holdlen
        by_cases hguard : maxM < ((getHistory s x now).2 ++ [m]).length
        · rw [if_pos hguard]
          simp only [Option.getD_some]
          rw [pyLastSlice_length_of_lt hmax hguard, hkval]
          have hg2 : maxM < (convMessages s x).length + 1 := by
            rw [hold] at hguard
            simpa using hguard
          exact harith.1 hg2
        · rw [if_neg hguard]
          simp only [Option.getD_some, List.length_append, List.length_singleton]
          rw [hkval, hold]
          have hg2 : ¬ maxM < (convMessages s x).length + 1 := by
            rw [hold] at hguard
            simpa using hguard
          exact harith.2 hg2
    · refine ⟨?_, ?_, ?_⟩
      · rw [applyOp]
        unfold metaCount
        rw [addMessage_meta_other s cid m now hx, ctrStep, setAt_other _ _ _ hx]
        exact hcnt
      · rw [applyOp, addMessage_conv_other s cid m now hx, ctrStep, setAt_other _ _ _ hx]
        exact hsync
      · intro k hk
        rw [ctrStep, setAt_other _ _ _ hx] at hk
        rw [applyOp, convMessages, addMessage_conv_other s cid m now hx]
        exact hlen k hk
  | clear cid =>
    refine ⟨by rw [applyOp]; unfold clearConversation; split <;> exact hm, fun x => ?_⟩
    obtain ⟨hcnt, hsync, hlen⟩ := hall x
    rw [applyOp]
    by_cases hx : x = cid
    · subst hx
      unfold clearConversation
      cases hc : s.conversations x with
      | none =>
        simp only [hc, Option.isSome_none, Bool.false_eq_true, if_false]
        have hnone : a x = none := by
          apply none_of_not_isSome
          rw [← hsync, hc]
          simp
        refine ⟨?_, ?_, ?_⟩
        · rw [ctrStep, mapAt_self, hnone]
          simpa [hnone] using hcnt
        · rw [ctrStep, mapAt_self, hnone]
          simp
        · intro k hk
          rw [ctrStep, mapAt_self, hnone] at hk
          simp at hk
      | some l =>
        simp only [hc, Option.isSome_some, if_true]
        have hsome : (a x).isSome := by rw [← hsync, hc]; simp
        obtain ⟨k, hk⟩ := Option.isSome_iff_exists.mp hsome
        refine ⟨?_, ?_, ?_⟩
        · show Option.map ConvMeta.messageCount
            ((mapAt s.metadata x fun md => { md with messageCount := 0 }) x) =
              ctrStep a (MemOp.clear x) x
          rw [mapAt_self, ctrStep, mapAt_self, hk]
          rw [hk] at hcnt
          unfold metaCount at hcnt
          cases hmd : s.metadata x with
          | none => rw [hmd] at hcnt; simp at hcnt
          | some md => simp
        · show ((setAt s.conversations x (some []) x).isSome = true ↔
            (ctrStep a (MemOp.clear x) x).isSome = true)
          rw [setAt_self, ctrStep, mapAt_self, hk]
          simp
        · intro k' hk'
          rw [ctrStep, mapAt_self, hk] at hk'
          simp at hk'
          subst hk'
          simp [convMessages, setAt_self]
    · unfold clearConversation
      have ha : ctrStep a (MemOp.clear cid) x = a x := by
        rw [ctrStep, mapAt_other _ _ _ hx]
      rw [ha]
      split
      · refine ⟨?_, ?_, ?_⟩
        · simpa [metaCount, mapAt, hx] using hcnt
        · simpa [setAt, hx] using hsync
        · intro k hk
          simpa [convMessages, setAt, hx] using hlen k hk
      · exact ⟨hcnt, hsync, hlen⟩
  | delete cid =>
    refine ⟨by rw [applyOp]; unfold deleteConversation; split <;> exact hm, fun x => ?_⟩
    obtain ⟨hcnt, hsync, hlen⟩ := hall x
    rw [applyOp]
    by_cases hx : x = cid
    · subst hx
      unfold deleteConversation
      cases hc : s.conversations x with
      | none =>
        simp only [hc, Option.isSome_none, Bool.false_eq_true, if_false]
        have hnone : a x = none := by
          apply none_of_not_isSome
          rw [← hsync, hc]
          simp
        refine ⟨?_, ?_, ?_⟩
        · rw [ctrStep, setAt_self]
          simpa [hnone] using hcnt
        · rw [ctrStep, setAt_self]
          simp
        · intro k hk
          rw [ctrStep, setAt_self] at hk
          simp at hk
      | some l =>
        simp only [hc, Option.isSome_some, if_true]
        refine ⟨?_, ?_, ?_⟩
        · show Option.map ConvMeta.messageCount (setAt s.metadata x none x) =
            ctrStep a (MemOp.delete x) x
          rw [setAt_self, ctrStep, setAt_self]
          rfl
        · rw [ctrStep]
          simp [setAt_self]
        · intro k hk
          rw [ctrStep, setAt_self] at hk
          simp at hk
    · unfold deleteConversation
      have ha : ctrStep a (MemOp.delete cid) x = a x := by
        rw [ctrStep, setAt_other _ _ _ hx]
      rw [ha]
      split
      · refine ⟨?_, ?_, ?_⟩
        · simpa [metaCount, setAt, hx] using hcnt
        · simpa [setAt, hx] using hsync
        · intro k hk
          simpa [convMessages, setAt, hx] using hlen k hk
      · exact ⟨hcnt, hsync, hlen⟩
  | touch cid now =>
    refine ⟨by rw [applyOp, getHistory_maxMessages]; exact hm, fun x => ?_⟩
    obtain ⟨hcnt, hsync, hlen⟩ := hall x
    rw [applyOp]
    by_cases hx : x = cid
    · subst hx
      refine ⟨?_, ?_, ?_⟩
      · unfold metaCount
        rw [getHistory_meta_at, ctrStep, setAt_self]
        cases hc : s.conversations x with
        | none =>
          have hnone : a x = none := by
            apply none_of_not_isSome
            rw [← hsync, hc]
            simp
          simp [hnone]
        | some l =>
          have hsome : (a x).isSome := by rw [← hsync, hc]; simp
          obtain ⟨k, hk⟩ := Option.isSome_iff_exists.mp hsome
          rw [hk] at hcnt
          unfold metaCount at hcnt
          cases hmd : s.metadata x with
          | none => rw [hmd] at hcnt; simp at hcnt
          | some md =>
            rw [hmd] at hcnt
            simp at hcnt
            simp [hk, hmd, hcnt]
      · rw [ctrStep, setAt_self, getHistory_conversations_at]
        simp
      · intro k hk
        rw [ctrStep, setAt_self] at hk
        have hc2 : convMessages ((getHistory s x now).1) x = (getHistory s x now).2 := by
          unfold convMessages
          rw [getHistory_conversations_at]
          rfl
        rw [hc2, getHistory_snd]
        have hkval : k = (a x).getD 0 := by injection hk with h'; omega
        rw [hkval]
        cases ha : a x with
        | none =>
          have hcn : s.conversations x = none := by
            apply none_of_not_isSome
            rw [hsync, ha]
            simp
          simp [convMessages, hcn, ha]
        | some k0 => simpa [ha] using hlen k0 ha
    · refine ⟨?_, ?_, ?_⟩
      · unfold metaCount
        rw [getHistory_meta_other s cid now hx, ctrStep, setAt_other _ _ _ hx]
        exact hcnt
      · rw [getHistory_conv_other s cid now hx, ctrStep, setAt_other _ _ _ hx]
        exact hsync
      · intro k hk
        rw [ctrStep, setAt_other _ _ _ hx] at hk
        rw [convMessages, getHistory_conv_other s cid now hx]
        exact hlen k hk

theorem runOps_meminv (maxM : Nat) (hmax : 1 ≤ maxM) (ops : List MemOp) :
    MemInv maxM (runOps maxM ops) (runCtr ops) := by
  suffices h : ∀ (l : List MemOp) (s : MemoryState) (a : String → Option Nat),
      MemInv maxM s a → MemInv maxM (l.foldl applyOp s) (l.foldl ctrStep a) by
    apply h
    exact ⟨rfl, fun cid => ⟨rfl, by simp [initState], fun k hk => by simp at hk⟩⟩
  intro l
  induction l with
  | nil => exact fun s a h => h
  | cons op t ih => exact fun s a h => ih _ _ (memInv_step maxM hmax s a h op)

/-- C9 (amended with `1 ≤ max_messages`): the `message_count` metadata field
equals the number of `add_message` calls since the conversation was created or
last cleared, trimming never changes it, it is at least the number of stored
messages, and after more than `max_messages` additions it strictly exceeds the
stored-message count. -/
theorem message_count_tracks_adds :
    (∀ (s : MemoryState) (cid : String), metaCount (trimHistory s cid) cid = metaCount s cid) ∧
    ∀ (maxM : Nat), 1 ≤ maxM → ∀ (ops : List MemOp) (cid : String),
      metaCount (runOps maxM ops) cid = runCtr ops cid ∧
      ∀ k, runCtr ops cid = some k →
        (convMessages (runOps maxM ops) cid).length = min k maxM ∧
        (convMessages (runOps maxM ops) cid).length ≤ k ∧
        (maxM < k → (convMessages (runOps maxM ops) cid).length < k) := by
  constructor
  · intro s cid
    unfold metaCount
    rw [trimHistory_metadata]
  · intro maxM hmax ops cid
    obtain ⟨hm, hall⟩ := runOps_meminv maxM hmax ops
    obtain ⟨hcnt, hsync, hlen⟩ := hall cid
    refine ⟨hcnt, fun k hk => ?_⟩
    have h := hlen k hk
    exact ⟨h, by omega, fun hgt => by omega⟩

/-- Witness for C9: with `max_messages = 1`, after two additions the count is
2 while only 1 message is stored. -/
theorem message_count_tracks_adds_witness :
    (convMessages
        (runOps 1 [MemOp.add "c" ⟨"human", "a"⟩ "t0", MemOp.add "c" ⟨"human", "b"⟩ "t1"]) "c").length <
      2 :=
  ((message_count_tracks_adds.2 1 (by decide)
      [MemOp.add "c" ⟨"human", "a"⟩ "t0", MemOp.add "c" ⟨"human", "b"⟩ "t1"] "c").2 2
    (by decide)).2.2 (by decide)

/-- Counterexample to C9 as stated: with `max_messages = 0`, after one
addition (more than `max_messages` additions) the count equals the number of
stored messages instead of strictly exceeding it, because `messages[-0:]`
keeps the whole list. -/
theorem message_count_tracks_adds_cex :
    metaCount (runOps 0 [MemOp.add "c" ⟨"human", "hi"⟩ "t"]) "c" = some 1 ∧
    runCtr [MemOp.add "c" ⟨"human", "hi"⟩ "t"] "c" = some 1 ∧
    ¬ (convMessages (runOps 0 [MemOp.add "c" ⟨"human", "hi"⟩ "t"]) "c").length < 1 := by
  refine ⟨by decide, by decide, by decide⟩

/-- C10 (amended with `1 ≤ n` for the recent-slice part): the read operations
`get_history` / `get_messages` / `get_recent_messages` on an unseen
conversation create a fresh empty entry with `message_count = 0` and return an
empty list; and for `n ≥ 1`, `get_recent_messages` returns the last
`min n total` stored messages in their original order. -/
theorem reads_create_and_recent_slice (s : MemoryState) (cid now : String) (n : Nat) :
    (s.conversations cid = none →
      ((getHistory s cid now).1).conversations cid = some [] ∧
      ((getHistory s cid now).1).metadata cid = some ⟨now, 0, now⟩ ∧
      metaCount ((getHistory s cid now).1) cid = some 0 ∧
      (getHistory s cid now).2 = [] ∧
      (getMessages s cid now).2 = [] ∧
      (getRecentMessages s cid n now).2 = []) ∧
    (1 ≤ n →
      (getRecentMessages s cid n now).2 =
        (getMessages s cid now).2.drop ((getMessages s cid now).2.length - n) ∧
      ((getRecentMessages s cid n now).2).length = min n (getMessages s cid now).2.length) := by
  constructor
  · intro h
    have h1 : ((getHistory s cid now).1).conversations cid = some [] := by
      unfold getHistory
      simp [h, setAt, mapAt]
    have h2 : ((getHistory s cid now).1).metadata cid = some ⟨now, 0, now⟩ := by
      rw [getHistory_meta_at]
      simp [h]
    have h3 : (getHistory s cid now).2 = [] := by
      rw [getHistory_snd]
      simp [convMessages, h]
    refine ⟨h1, h2, by rw [metaCount, h2]; rfl, h3, h3, ?_⟩
    show (if (getHistory s cid now).2.isEmpty then [] else pyLastSlice (getHistory s cid now).2 n) = []
    rw [h3]
    rfl
  · intro hn
    show ((if (getHistory s cid now).2.isEmpty then [] else pyLastSlice (getHistory s cid now).2 n) =
        (getHistory s cid now).2.drop ((getHistory s cid now).2.length - n)) ∧
      (if (getHistory s cid now).2.isEmpty then [] else pyLastSlice (getHistory s cid now).2 n).length =
        min n (getHistory s cid now).2.length
    cases hmp : (getHistory s cid now).2 with
    | nil => simp
    | cons hd tl =>
      have hne : ((hd :: tl : List PyMsg).isEmpty) = false := rfl
      rw [hne]
      simp only [Bool.false_eq_true, if_false]
      have hslice : pyLastSlice (hd :: tl) n = (hd :: tl).drop ((hd :: tl).length - n) := by
        unfold pyLastSlice
        rw [if_neg (by omega)]
      refine ⟨hslice, ?_⟩
      rw [hslice]
      simp only [List.length_drop]
      omega

/-- Witness for C10: with two stored messages, `get_recent_messages` with
`n = 1` returns exactly one message. -/
theorem reads_create_and_recent_slice_witness :
    ((getRecentMessages
        (addMessage (addMessage (initState 5) "c" ⟨"human", "a"⟩ "t") "c" ⟨"human", "b"⟩ "t")
        "c" 1 "t").2).length =
      min 1 ((getMessages
        (addMessage (addMessage (initState 5) "c" ⟨"human", "a"⟩ "t") "c" ⟨"human", "b"⟩ "t")
        "c" "t").2).length :=
  ((reads_create_and_recent_slice
      (addMessage (addMessage (initState 5) "c" ⟨"human", "a"⟩ "t") "c" ⟨"human", "b"⟩ "t")
      "c" "t" 1).2 (by decide)).2

/-- Counterexample to C10 as stated: `get_recent_messages` with `n = 0` on a
conversation holding one message returns that message (Python `messages[-0:]`
is the whole list), not the last `min 0 total = 0` messages. -/
theorem reads_create_and_recent_slice_cex :
    ¬ (((getRecentMessages (addMessage (initState 5) "c" ⟨"human", "hi"⟩ "t") "c" 0 "t").2).length =
        min 0 ((getMessages (addMessage (initState 5) "c" ⟨"human", "hi"⟩ "t") "c" "t").2).length) := by
  decide

theorem shouldContinue_concat (msgs : List BMessage) (r : BMessage) :
    shouldContinue (msgs ++ [r]) =
      if hasToolCallsAttr r && !(toolCallsOf r).isEmpty then "tools" else endNode := by
  unfold shouldContinue
  rw [List.getLast?_concat]

theorem shouldContinue_cases (msgs : List BMessage) :
    shouldContinue msgs = "tools" ∨ shouldContinue msgs = endNode := by
  unfold shouldContinue
  split
  · split
    · exact Or.inl rfl
    · exact Or.inr rfl
  · exact Or.inr rfl

theorem nextNode_chatbot (s : RedmineChatState) :
    nextNode redmineGraph "chatbot" s = shouldContinue s.messages := by
  unfold nextNode
  rw [if_pos (by rfl)]
  rcases shouldContinue_cases s.messages with h | h <;> rw [h] <;> rfl

theorem nextNode_tools (s : RedmineChatState) :
    nextNode redmineGraph "tools" s = "chatbot" := by
  unfold nextNode
  rw [if_neg (by decide)]
  rfl

theorem toolCalls_nonempty_iff (r : BMessage) :
    (hasToolCallsAttr r && !(toolCallsOf r).isEmpty) = true ↔ toolCallsOf r ≠ [] := by
  cases r with
  | ai c tc =>
    cases tc with
    | nil => simp [hasToolCallsAttr, toolCallsOf]
    | cons hd tl => simp [hasToolCallsAttr, toolCallsOf]
  | system c => simp [hasToolCallsAttr, toolCallsOf]
  | human c => simp [hasToolCallsAttr, toolCallsOf]
  | tool c i => simp [hasToolCallsAttr, toolCallsOf]

/-- C2: after the chatbot node runs, execution proceeds to the tools node iff
the last message of the resulting state carries a non-empty tool-call list,
and otherwise the run ends; after every execution of the tools node control
returns to the chatbot node, and the tool result messages are appended to the
message list, which the prompt of the next LLM call ends with. -/
theorem chatbot_tools_loop (llm : List BMessage → BMessage) (exec : ToolCall → String)
    (sysMsg : BMessage) (s : RedmineChatState) :
    ((nextNode redmineGraph "chatbot" (runNodeUpdate llm exec sysMsg "chatbot" s) = "tools" ↔
        toolCallsOf ((runNodeUpdate llm exec sysMsg "chatbot" s).messages.getLastD
          (BMessage.system "")) ≠ []) ∧
      (nextNode redmineGraph "chatbot" (runNodeUpdate llm exec sysMsg "chatbot" s) = endNode ↔
        toolCallsOf ((runNodeUpdate llm exec sysMsg "chatbot" s).messages.getLastD
          (BMessage.system "")) = [])) ∧
    (∀ t : RedmineChatState, nextNode redmineGraph "tools" t = "chatbot") ∧
    (∀ t : RedmineChatState,
      (runNodeUpdate llm exec sysMsg "tools" t).messages = t.messages ++ toolNodeOutput exec t ∧
      ∃ pre, promptMessages sysMsg (runNodeUpdate llm exec sysMsg "tools" t).messages =
        pre ++ toolNodeOutput exec t) := by
  have hrun : (runNodeUpdate llm exec sysMsg "chatbot" s).messages =
      s.messages ++ [llm (promptMessages sysMsg s.messages)] := by
    unfold runNodeUpdate
    rw [if_pos (by rfl)]
    rfl
  set r := llm (promptMessages sysMsg s.messages) with hr
  have hlast : (runNodeUpdate llm exec sysMsg "chatbot" s).messages.getLastD
      (BMessage.system "") = r := by
    rw [hrun]
    rw [List.getLastD_concat]
  have hnext : nextNode redmineGraph "chatbot" (runNodeUpdate llm exec sysMsg "chatbot" s) =
      if hasToolCallsAttr r && !(toolCallsOf r).isEmpty then "tools" else endNode := by
    rw [nextNode_chatbot, hrun, shouldContinue_concat]
  refine ⟨⟨?_, ?_⟩, nextNode_tools, fun t => ?_⟩
  · rw [hnext, hlast]
    by_cases h : hasToolCallsAttr r && !(toolCallsOf r).isEmpty
    · rw [if_pos h]
      simp only [true_iff]
      exact (toolCalls_nonempty_iff r).mp h
    · rw [if_neg h]
      constructor
      · intro he
        exact absurd he (by decide)
      · intro he
        exact absurd ((toolCalls_nonempty_iff r).mpr he) h
  · rw [hnext, hlast]
    by_cases h : hasToolCallsAttr r && !(toolCallsOf r).isEmpty
    · rw [if_pos h]
      constructor
      · intro he
        exact absurd he (by decide)
      · intro he
        exact absurd h (by rw [toolCalls_nonempty_iff]; exact fun hne => hne he)
    · rw [if_neg h]
      simp only [true_iff]
      by_contra hne
      exact absurd ((toolCalls_nonempty_iff r).mpr hne) h
  · have htools : (runNodeUpdate llm exec sysMsg "tools" t).messages =
        t.messages ++ toolNodeOutput exec t := by
      unfold runNodeUpdate
      rw [if_neg (by decide), if_pos (by rfl)]
      rfl
    refine ⟨htools, ?_⟩
    rw [htools]
    unfold promptMessages
    by_cases hc : (t.messages ++ toolNodeOutput exec t).length = 1 ∨
        ¬ (t.messages ++ toolNodeOutput exec t).any isSystemMessage
    · exact ⟨sysMsg :: t.messages, by rw [if_pos hc]; simp⟩
    · exact ⟨t.messages, by rw [if_neg hc]⟩

/-- Witness for C2: in the concrete chatbot state below the tools node hands
control back to the chatbot node. -/
theorem chatbot_tools_loop_witness :
    nextNode redmineGraph "tools"
      { messages := [BMessage.human "hi"], conversationId := "c"
        currentProjectId := none, currentIssueId := none } = "chatbot" :=
  (chatbot_tools_loop (fun _ => BMessage.ai "x" []) (fun _ => "r") (BMessage.system "sys")
      { messages := [BMessage.human "hi"], conversationId := "c"
        currentProjectId := none, currentIssueId := none }).2.1
    { messages := [BMessage.human "hi"], conversationId := "c"
      currentProjectId := none, currentIssueId := none }

theorem execTrace_subset (llm : List BMessage → BMessage) (exec : ToolCall → String)
    (sysMsg : BMessage) :
    ∀ (k : Nat) (p : String × RedmineChatState),
      (p.1 = "chatbot" ∨ p.1 = "tools" ∨ p.1 = endNode) →
      ∀ name ∈ execTrace llm exec sysMsg k p, name = "chatbot" ∨ name = "tools" := by
  intro k
  induction k with
  | zero =>
    intro p hp name hm
    simp [execTrace] at hm
  | succ k ih =>
    intro p hp name hm
    rw [execTrace] at hm
    by_cases hend : p.1 = endNode
    · rw [if_pos hend] at hm
      simp at hm
    · rw [if_neg hend] at hm
      rcases List.mem_cons.mp hm with h1 | h2
      · subst h1
        rcases hp with h | h | h
        · exact Or.inl h
        · exact Or.inr h
        · exact absurd h hend
      · refine ih (graphStep llm exec sysMsg p) ?_ name h2
        rw [graphStep, if_neg hend]
        rcases hp with h | h | h
        · rw [h]
          rcases shouldContinue_cases
              (runNodeUpdate llm exec sysMsg "chatbot" p.2).messages with hs | hs
          · refine Or.inr (Or.inl ?_)
            show nextNode redmineGraph "chatbot" (runNodeUpdate llm exec sysMsg "chatbot" p.2) =
              "tools"
            rw [nextNode_chatbot]
            exact hs
          · refine Or.inr (Or.inr ?_)
            show nextNode redmineGraph "chatbot" (runNodeUpdate llm exec sysMsg "chatbot" p.2) =
              endNode
            rw [nextNode_chatbot]
            exact hs
        · rw [h]
          exact Or.inl (nextNode_tools (runNodeUpdate llm exec sysMsg "tools" p.2))
        · exact absurd h hend

/-- C3: in the latest revision the compiled Redmine chatbot graph contains
exactly the two nodes "chatbot" and "tools", the chatbot constructs neither
an AdaptiveRAGRouter nor an AdaptiveRAGGrader, and every node executed in any
run from the entry point is "chatbot" or "tools", so no routing or grading
step is ever reached. -/
theorem no_router_or_grader_reached :
    mkAdaptiveRedmineChatbot.router = none ∧
    mkAdaptiveRedmineChatbot.grader = none ∧
    mkAdaptiveRedmineChatbot.graph.nodes = ["chatbot", "tools"] ∧
    ∀ (llm : List BMessage → BMessage) (exec : ToolCall → String) (sysMsg : BMessage)
      (k : Nat) (s : RedmineChatState) (name : String),
      name ∈ execTrace llm exec sysMsg k (redmineGraph.entry, s) →
      name = "chatbot" ∨ name = "tools" := by
  refine ⟨rfl, rfl, rfl, fun llm exec sysMsg k s name hm => ?_⟩
  exact execTrace_subset llm exec sysMsg k (redmineGraph.entry, s) (Or.inl rfl) name hm

/-- Witness for C3: in a one-step run from the entry point the executed node
is the chatbot node. -/
theorem no_router_or_grader_reached_witness :
    "chatbot" = "chatbot" ∨ "chatbot" = "tools" :=
  no_router_or_grader_reached.2.2.2 (fun _ => BMessage.ai "x" []) (fun _ => "r")
    (BMessage.system "sys") 1
    { messages := [BMessage.human "hi"], conversationId := "c"
      currentProjectId := none, currentIssueId := none }
    "chatbot" (by decide)

/-- C4: every value returned by AdaptiveRAGRouter.route has a datasource
equal to one of the three strings, and the three strings are exactly the
representable classification outcomes of the RouteQuery result type. -/
theorem route_datasource_closed :
    (∀ q : RouteQuery, (routeResult q).datasource.str = "redmine_tools" ∨
      (routeResult q).datasource.str = "web_search" ∨
      (routeResult q).datasource.str = "direct_answer") ∧
    (∀ s : String, (∃ d : RouteDatasource, d.str = s) ↔
      (s = "redmine_tools" ∨ s = "web_search" ∨ s = "direct_answer")) := by
  constructor
  · rintro ⟨d, rs⟩
    cases d
    · exact Or.inl rfl
    · exact Or.inr (Or.inl rfl)
    · exact Or.inr (Or.inr rfl)
  · intro s
    constructor
    · rintro ⟨d, rfl⟩
      cases d
      · exact Or.inl rfl
      · exact Or.inr (Or.inl rfl)
      · exact Or.inr (Or.inr rfl)
    · rintro (rfl | rfl | rfl)
      · exact ⟨.redmineTools, rfl⟩
      · exact ⟨.webSearch, rfl⟩
      · exact ⟨.directAnswer, rfl⟩

/-- Witness for C4 at a concrete routed query. -/
theorem route_datasource_closed_witness :
    (routeResult ⟨RouteDatasource.webSearch, "external info"⟩).datasource.str = "redmine_tools" ∨
    (routeResult ⟨RouteDatasource.webSearch, "external info"⟩).datasource.str = "web_search" ∨
    (routeResult ⟨RouteDatasource.webSearch, "external info"⟩).datasource.str = "direct_answer" :=
  route_datasource_closed.1 ⟨RouteDatasource.webSearch, "external info"⟩

theorem find?_first_split {α : Type} (p : α → Bool) :
    ∀ (l : List α) (a : α), l.find? p = some a →
      ∃ l₁ l₂, l = l₁ ++ a :: l₂ ∧ ∀ x ∈ l₁, ¬ p x = true := by
  intro l
  induction l with
  | nil =>
    intro a h
    simp at h
  | cons b t ih =>
    intro a h
    by_cases hb : p b = true
    · rw [List.find?_cons_of_pos _ hb] at h
      injection h with h2
      subst h2
      exact ⟨[], t, rfl, by simp⟩
    · rw [List.find?_cons_of_neg _ hb] at h
      obtain ⟨l₁, l₂, heq, hall⟩ := ih a h
      refine ⟨b :: l₁, l₂, by rw [heq]; rfl, ?_⟩
      intro x hx
      rcases List.mem_cons.mp hx with h3 | h3
      · rw [h3]
        exact hb
      · exact hall x h3

/-- C5: each name-lookup of the metadata cache returns the first entry of the
corresponding snapshot list whose name contains the query case-insensitively,
and None exactly when no entry matches; a returned entry is a member of the
snapshot (so it carries the numeric id used to resolve the name). -/
theorem metadata_lookup_first_match (L : RedmineMetadataLoader) (query : String) :
    firstMatchSpec query L.projects (getProjectByName L query) ∧
    firstMatchSpec query L.statuses (getStatusByName L query) ∧
    firstMatchSpec query L.priorities (getPriorityByName L query) ∧
    firstMatchSpec query L.trackers (getTrackerByName L query) := by
  have key : ∀ entries : List MetaEntry,
      firstMatchSpec query entries (getByName query entries) := by
    intro entries
    constructor
    · simp only [getByName, List.find?_eq_none, decide_eq_true_eq]
    · intro e h
      have hp := List.find?_some h
      have hmem := List.mem_of_find?_eq_some h
      obtain ⟨l₁, l₂, heq, hall⟩ := find?_first_split _ entries e h
      refine ⟨by simpa using hp, hmem, l₁, l₂, heq, ?_⟩
      intro x hx
      have h4 := hall x hx
      simpa using h4
  exact ⟨key L.projects, key L.statuses, key L.priorities, key L.trackers⟩

/-- Witness for C5: on a concrete snapshot the project lookup finds the first
case-insensitive match and returns its entry (with id 7). -/
theorem metadata_lookup_first_match_witness :
    nameMatches "alpha"
        (⟨7, some "Alpha Project"⟩ : MetaEntry) ∧
      (⟨7, some "Alpha Project"⟩ : MetaEntry) ∈
        (RedmineMetadataLoader.mk [⟨7, some "Alpha Project"⟩, ⟨9, some "Beta"⟩] [] [] []).projects ∧
      ∃ l₁ l₂,
        (RedmineMetadataLoader.mk [⟨7, some "Alpha Project"⟩, ⟨9, some "Beta"⟩] [] [] []).projects =
          l₁ ++ (⟨7, some "Alpha Project"⟩ : MetaEntry) :: l₂ ∧
        ∀ x ∈ l₁, ¬ nameMatches "alpha" x :=
  ((metadata_lookup_first_match
      (RedmineMetadataLoader.mk [⟨7, some "Alpha Project"⟩, ⟨9, some "Beta"⟩] [] [] [])
      "alpha").1.2 ⟨7, some "Alpha Project"⟩ (by decide))

/-- C6 (amended: filters are included exactly when their argument is truthy,
i.e. neither None nor 0 / empty): every request built by the client carries
the X-Redmine-API-Key header, and get_issues always sends `limit` while each
optional filter key appears in the params iff its argument is truthy. -/
theorem client_auth_and_issue_filters (c : RedmineAPIClient) (method endpoint : String)
    (ps : List (String × ParamV)) (body : Bool) (pid : Option Int) (sid : Option String)
    (aid : Option Int) (limit : Int) :
    ("X-Redmine-API-Key", c.apiKey) ∈ (mkRequest c method endpoint ps body).headers ∧
    ("limit", ParamV.intV limit) ∈ (c.getIssuesRequest pid sid aid limit).params ∧
    hasParamKey (c.getIssuesRequest pid sid aid limit).params "project_id" = pyTruthyOptInt pid ∧
    hasParamKey (c.getIssuesRequest pid sid aid limit).params "status_id" = pyTruthyOptStr sid ∧
    hasParamKey (c.getIssuesRequest pid sid aid limit).params "assigned_to_id" =
      pyTruthyOptInt aid := by
  refine ⟨by simp [mkRequest, RedmineAPIClient.reqHeaders], ?_, ?_, ?_, ?_⟩
  · show ("limit", ParamV.intV limit) ∈ getIssuesParams pid sid aid limit
    unfold getIssuesParams
    cases hb1 : pyTruthyOptInt pid <;> cases hb2 : pyTruthyOptStr sid <;>
      cases hb3 : pyTruthyOptInt aid <;> simp
  · show hasParamKey (getIssuesParams pid sid aid limit) "project_id" = pyTruthyOptInt pid
    unfold getIssuesParams
    cases hb1 : pyTruthyOptInt pid <;> cases hb2 : pyTruthyOptStr sid <;>
      cases hb3 : pyTruthyOptInt aid <;> rfl
  · show hasParamKey (getIssuesParams pid sid aid limit) "status_id" = pyTruthyOptStr sid
    unfold getIssuesParams
    cases hb1 : pyTruthyOptInt pid <;> cases hb2 : pyTruthyOptStr sid <;>
      cases hb3 : pyTruthyOptInt aid <;> rfl
  · show hasParamKey (getIssuesParams pid sid aid limit) "assigned_to_id" = pyTruthyOptInt aid
    unfold getIssuesParams
    cases hb1 : pyTruthyOptInt pid <;> cases hb2 : pyTruthyOptStr sid <;>
      cases hb3 : pyTruthyOptInt aid <;> rfl

/-- Witness for C6: a concrete client call with a truthy project filter. -/
theorem client_auth_and_issue_filters_witness :
    ("X-Redmine-API-Key", "KEY") ∈
      (mkRequest (RedmineAPIClient.mk "http://redmine" "KEY") "GET" "/projects.json" [] false).headers :=
  (client_auth_and_issue_filters (RedmineAPIClient.mk "http://redmine" "KEY") "GET"
    "/projects.json" [] false (some 5) (some "open") none 100).1

/-- Counterexample to C6 as stated: `project_id = 0` is provided (not None)
yet `if project_id:` drops it, so no project_id param is sent. -/
theorem client_auth_and_issue_filters_cex :
    (some (0 : Int) ≠ (none : Option Int)) ∧
    hasParamKey
      ((RedmineAPIClient.mk "http://redmine" "KEY").getIssuesRequest (some 0) none none
        100).params "project_id" = false := by
  refine ⟨by decide, by decide⟩

theorem pySliceTo_ofNat (n : Nat) (l : List α) : pySliceTo (n : Int) l = l.take n := by
  unfold pySliceTo
  rw [if_pos (by exact_mod_cast Nat.zero_le n)]
  simp

/-- C7: the issues returned by search_redmine_issues are exactly the
case-insensitive matches (on subject, description or project name) among the
fetched issues, in fetched order, truncated to the first `limit` matches; the
fetch request filters by status "*" with limit 100; and when nothing matches,
the no-result string is returned. -/
theorem search_tool_filters (query : String) (limit : Nat) (fetched : List RIssue)
    (c : RedmineAPIClient) :
    (∀ i ∈ searchMatching query (limit : Int) fetched, searchMatches query i) ∧
    (searchMatching query (limit : Int) fetched).Sublist fetched ∧
    (searchMatching query (limit : Int) fetched).length =
      min limit (fetched.filter (fun i => decide (searchMatches query i))).length ∧
    (∃ t, searchMatching query (limit : Int) fetched ++ t =
      fetched.filter (fun i => decide (searchMatches query i))) ∧
    ((∀ i ∈ fetched, ¬ searchMatches query i) →
      searchCore query (limit : Int) fetched =
        "No issues found matching " ++ sQuote ++ query ++ sQuote ++ ".") ∧
    hasParamKey (searchFetchRequest c).params "status_id" = true ∧
    ("status_id", ParamV.strV "*") ∈ (searchFetchRequest c).params ∧
    ("limit", ParamV.intV 100) ∈ (searchFetchRequest c).params := by
  have hsm : searchMatching query (limit : Int) fetched =
      (fetched.filter (fun i => decide (searchMatches query i))).take limit := by
    unfold searchMatching
    rw [pySliceTo_ofNat]
  refine ⟨?_, ?_, ?_, ?_, ?_, ?_, ?_, ?_⟩
  · intro i hi
    rw [hsm] at hi
    have hmem := (List.take_sublist _ _).subset hi
    have hfil := List.mem_filter.mp hmem
    simpa using hfil.2
  · rw [hsm]
    exact (List.take_sublist _ _).trans (List.filter_sublist fetched)
  · rw [hsm]
    simp
  · rw [hsm]
    exact ⟨(fetched.filter (fun i => decide (searchMatches query i))).drop limit,
      List.take_append_drop _ _⟩
  · intro hnone
    have hfil : fetched.filter (fun i => decide (searchMatches query i)) = [] := by
      rw [List.filter_eq_nil_iff]
      intro i hi
      simpa using hnone i hi
    unfold searchCore
    rw [hsm, hfil, List.take_nil]
    rfl
  · rfl
  · show ("status_id", ParamV.strV "*") ∈ getIssuesParams none (some "*") none 100
    decide
  · show ("limit", ParamV.intV 100) ∈ getIssuesParams none (some "*") none 100
    decide

/-- Witness for C7: a concrete fetched issue that does not match the query
"zzz" yields the no-result string. -/
theorem search_tool_filters_witness :
    searchCore "zzz" ((10 : Nat) : Int)
        [⟨1, "Fix login", some "auth broken", some "Proj", some "New",
          none, none, none, none, none, none⟩] =
      "No issues found matching " ++ sQuote ++ "zzz" ++ sQuote ++ "." :=
  (search_tool_filters "zzz" 10
      [⟨1, "Fix login", some "auth broken", some "Proj", some "New",
        none, none, none, none, none, none⟩]
      (RedmineAPIClient.mk "http://redmine" "KEY")).2.2.2.2.1 (by decide)

theorem beginsError_append {s : String} (h : ∃ r, s = "Error" ++ r) (t : String) :
    ∃ r, s ++ t = "Error" ++ r := by
  obtain ⟨r, hr⟩ := h
  exact ⟨r ++ t, by rw [hr, String.append_assoc]⟩

/-- C8: every tool of the redmine_tools list is total at its interface: when
its try-block body succeeds, the tool returns the body string; when the body
raises any exception, the tool returns the except-clause string, which begins
with "Error". -/
theorem tools_catch_all_errors :
    ∀ p ∈ redmineToolImpls, ∀ (a : ToolArgs) (o : RedmineOracle),
      (∀ s, p.1 a o = Except.ok s → runTool p.1 p.2 a o = s) ∧
      (∀ e, p.1 a o = Except.error e → ∃ rest, runTool p.1 p.2 a o = "Error" ++ rest) := by
  intro p hp a o
  have hok : ∀ s, p.1 a o = Except.ok s → runTool p.1 p.2 a o = s := by
    intro s hs
    unfold runTool
    rw [hs]
  refine ⟨hok, fun e he => ?_⟩
  have hrun : runTool p.1 p.2 a o = p.2 a e := by
    unfold runTool
    rw [he]
  rw [hrun]
  fin_cases hp
  · exact beginsError_append ⟨" fetching projects: ", rfl⟩ (PyErr.str e)
  · exact beginsError_append ⟨" fetching issues: ", rfl⟩ (PyErr.str e)
  · exact beginsError_append
      (beginsError_append (beginsError_append ⟨" fetching issue #", rfl⟩ a.issueId) ": ")
      (PyErr.str e)
  · exact beginsError_append ⟨" creating issue: ", rfl⟩ (PyErr.str e)
  · exact beginsError_append
      (beginsError_append (beginsError_append ⟨" updating issue #", rfl⟩ a.issueId) ": ")
      (PyErr.str e)
  · exact beginsError_append ⟨" fetching time entries: ", rfl⟩ (PyErr.str e)
  · exact beginsError_append ⟨" fetching metadata: ", rfl⟩ (PyErr.str e)
  · exact beginsError_append ⟨" searching issues: ", rfl⟩ (PyErr.str e)

/-- Witness for C8: the projects tool called with the non-numeric limit
"abc" raises ValueError internally and returns an "Error"-prefixed string. -/
theorem tools_catch_all_errors_witness :
    ∃ rest,
      runTool getRedmineProjectsBody getRedmineProjectsWrap
        ⟨"null", "open", "abc", "", "", "", "normal", none, none, none, ""⟩
        ⟨Except.ok [], Except.ok [], Except.ok none, Except.ok none, Except.ok (),
          Except.ok [], Except.ok [], Except.ok [], Except.ok []⟩ =
        "Error" ++ rest :=
  (tools_catch_all_errors (getRedmineProjectsBody, getRedmineProjectsWrap)
      (by unfold redmineToolImpls; exact List.mem_cons_self _ _)
      ⟨"null", "open", "abc", "", "", "", "normal", none, none, none, ""⟩
      ⟨Except.ok [], Except.ok [], Except.ok none, Except.ok none, Except.ok (),
        Except.ok [], Except.ok [], Except.ok [], Except.ok []⟩).2
    (PyErr.valueError ("invalid literal for int() with base 10: " ++ sQuote ++ "abc" ++ sQuote))
    (by rfl)
